import Mathlib

/-!
# Verification of the SEO tracker import pipeline (src/seo_tracker.py)

A shallow embedding of the single-file dashboard's import normalization
pipeline: the value cleaner (`clean_and_prepare_df` and the numeric
coercions in `save_data`), the upload column dispatch in `main`
(lines 198-206), the month-over-month aggregation (`aggregate_metrics`)
and comparison table (`main`, lines 356-371), and the persistence append
(`save_data`).

Conventions of the embedding:
  * Python/pandas floats are idealized as rationals; a float `NaN`
    (pandas' missing marker) is `Option.none`.
  * A raw CSV cell is a string; `pd.to_numeric` is modelled by an explicit
    decimal parser `parseNum` covering sign, decimal point and exponent
    with surrounding whitespace (the finite-decimal fragment; infinities
    are outside the embedding).
  * pandas exceptions are `Except.error`; `errors="coerce"` never errors.
  * In-place dataframe mutation (for the frame property of `save_data`)
    is modelled by an explicit store of dataframes indexed by references.
-/

namespace SeoTracker

/-! ## Characters and strings: whitespace, lowercasing, '%' removal -/

/-- Whitespace characters accepted around a numeric literal
(space, tab, newline, carriage return, vertical tab, form feed). -/
def isWS (c : Char) : Bool :=
  c == ' ' || c == '\t' || c == '\n' || c == '\r' ||
  c == Char.ofNat 11 || c == Char.ofNat 12

/-- Drop whitespace from both ends of a character list. -/
def trimWS (l : List Char) : List Char :=
  ((l.dropWhile isWS).reverse.dropWhile isWS).reverse

/-- `str.strip()` on a Python string / `df.columns.str.strip()` on one name. -/
def strip (s : String) : String := String.mk (trimWS s.data)

/-- `str.lower()` character list. -/
def lowerChars (s : String) : List Char := s.data.map Char.toLower

/-- `str.lower()`. -/
def lowerStr (s : String) : String := String.mk (lowerChars s)

/-- `str.replace("%", "", regex=False)`: every '%' occurrence removed. -/
def removePct (s : String) : String :=
  String.mk (s.data.filter (fun c => !(c == '%')))

/-! ## The numeric parser behind `pd.to_numeric` -/

/-- The natural number denoted by a digit list (most significant first). -/
def digitsToNat (l : List Char) : Nat :=
  l.foldl (fun a c => 10 * a + (c.toNat - 48)) 0

/-- Integer power of a rational (Python float exponent). -/
def qpow (q : ℚ) : ℤ → ℚ
  | .ofNat n => q ^ n
  | .negSucc n => (q ^ (n + 1))⁻¹

/-- Parse an unsigned mantissa: digits, optionally with one decimal point,
at least one digit in total. -/
def parseMant (l : List Char) : Option ℚ :=
  match l.dropWhile Char.isDigit with
  | [] =>
    if (l.takeWhile Char.isDigit).isEmpty then none
    else some (digitsToNat (l.takeWhile Char.isDigit) : ℚ)
  | '.' :: fp =>
    if fp.all Char.isDigit
        && !((l.takeWhile Char.isDigit).isEmpty && fp.isEmpty) then
      some ((digitsToNat (l.takeWhile Char.isDigit) : ℚ)
        + (digitsToNat fp : ℚ) / (10 : ℚ) ^ fp.length)
    else none
  | _ => none

/-- Parse an exponent part (after 'e'/'E'): optional sign then digits. -/
def parseExp (l : List Char) : Option ℤ :=
  match l with
  | '+' :: d => if d.isEmpty || !d.all Char.isDigit then none
                else some (digitsToNat d : ℤ)
  | '-' :: d => if d.isEmpty || !d.all Char.isDigit then none
                else some (-(digitsToNat d : ℤ))
  | d => if d.isEmpty || !d.all Char.isDigit then none
         else some (digitsToNat d : ℤ)

/-- A character that does not open an exponent part. -/
def notExpChar (c : Char) : Bool := !(c == 'e' || c == 'E')

/-- Parse an unsigned decimal with optional exponent. -/
def parseUnsigned (l : List Char) : Option ℚ :=
  match parseMant (l.takeWhile notExpChar) with
  | none => none
  | some m =>
    match l.dropWhile notExpChar with
    | [] => some m
    | _ :: er => (parseExp er).map (fun e => m * qpow 10 e)

/-- Parse a signed decimal character list. -/
def parseChars : List Char → Option ℚ
  | '+' :: r => parseUnsigned r
  | '-' :: r => (parseUnsigned r).map (fun q => -q)
  | l => parseUnsigned l

/-- The number a string denotes for `pd.to_numeric` (finite decimals
with surrounding whitespace); `none` when it fails to parse. -/
def parseNum (s : String) : Option ℚ := parseChars (trimWS s.data)

/-- `pd.to_numeric`'s error mode: `raise` throws on a bad value,
`coerce` turns it into NaN. -/
inductive ErrMode | raise_ | coerce
deriving DecidableEq

/-- `pd.to_numeric(s, errors=mode)` on one string value: `.ok (some q)` on a
parse, `.ok none` (NaN) on failure under `coerce`, an exception under
`raise`. -/
def to_numeric (mode : ErrMode) (s : String) : Except String (Option ℚ) :=
  match parseNum s with
  | some q => .ok (some q)
  | none =>
    match mode with
    | .coerce => .ok none
    | .raise_ => .error ("Unable to parse string " ++ s)

/-- What `pd.to_numeric(·, errors="coerce")` yields on one string value. -/
def to_numeric_coerce (s : String) : Option ℚ := parseNum s

/-! ## Dataframes

A raw uploaded dataframe: named columns over rows of cells. A cell is a
raw CSV string, an integer (after `astype(int)`) or a float that may be
NaN (after `pd.to_numeric`). -/

/-- One dataframe cell. -/
inductive Cell
  | str (s : String)
  | int (n : ℤ)
  | num (v : Option ℚ)
deriving DecidableEq

/-- A dataframe: a header row of column names and the data rows
(each row lists its cells in column order). -/
structure DataFrame where
  cols : List String
  rows : List (List Cell)
deriving DecidableEq

/-- First index of a column name in a header list. -/
def idxOf? (name : String) : List String → Option Nat
  | [] => none
  | c :: t => if c = name then some 0 else (idxOf? name t).map (· + 1)

/-- Replace the element at one index, leaving the rest of the list alone. -/
def modifyNth (f : α → α) : Nat → List α → List α
  | _, [] => []
  | 0, a :: t => f a :: t
  | n + 1, a :: t => a :: modifyNth f n t

/-- Apply `f` to every cell of the named column (`df[name] = f(df[name])`);
the dataframe is unchanged when the column is absent. -/
def mapCol (df : DataFrame) (name : String) (f : Cell → Cell) : DataFrame :=
  match idxOf? name df.cols with
  | some k => ⟨df.cols, df.rows.map (modifyNth f k)⟩
  | none => df

/-- `df[name] = c` with a constant value: overwrite the column when present,
append a new last column otherwise. -/
def setCol (df : DataFrame) (name : String) (c : Cell) : DataFrame :=
  match idxOf? name df.cols with
  | some k => ⟨df.cols, df.rows.map (modifyNth (fun _ => c) k)⟩
  | none => ⟨df.cols ++ [name], df.rows.map (· ++ [c])⟩

/-- `astype(str)` on one cell. -/
def cellToStr : Cell → String
  | .str s => s
  | .int n => toString n
  | .num (some q) => toString q
  | .num none => "nan"

/-- `pd.to_numeric(·, errors="coerce")` on one cell: strings are parsed,
numbers pass through, NaN stays NaN. -/
def coerceCell : Cell → Option ℚ
  | .str s => parseNum s
  | .int n => some (n : ℚ)
  | .num v => v

/-- `astype(int)`'s truncation toward zero of a float. -/
def truncQ (q : ℚ) : ℤ := if 0 ≤ q then ⌊q⌋ else -⌊-q⌋

/-- `pd.to_numeric(col, errors="coerce").fillna(0).astype(int)` on one cell
(the Clicks/Impressions coercion of `save_data`). -/
def intCoerceCell (c : Cell) : Cell := .int (truncQ ((coerceCell c).getD 0))

/-- `pd.to_numeric(col, errors="coerce")` on one cell
(the CTR/Position coercion of `save_data`). -/
def numCoerceCell (c : Cell) : Cell := .num (coerceCell c)

/-- The CTR cleaning of `clean_and_prepare_df`:
`df["CTR"].astype(str).str.replace("%", "")` then
`pd.to_numeric(·, errors="coerce")` on one cell. -/
def cleanCTRcell (c : Cell) : Cell :=
  .num (to_numeric_coerce (removePct (cellToStr c)))

/-- `clean_and_prepare_df` (src/seo_tracker.py:59-66): strip the column
names; when a "CTR" column is present, drop '%' signs from it and coerce
it to numeric. -/
def clean_and_prepare_df (df : DataFrame) : DataFrame :=
  mapCol ⟨df.cols.map strip, df.rows⟩ "CTR" cleanCTRcell

/-- The numeric-coercion loop of `save_data` (src/seo_tracker.py:73-79):
Clicks and Impressions become integers with NaN filled by 0; CTR and
Position become floats keeping NaN; absent columns are skipped. -/
def coerceNumeric (df : DataFrame) : DataFrame :=
  mapCol (mapCol (mapCol (mapCol df "Clicks" intCoerceCell)
    "Impressions" intCoerceCell) "CTR" numCoerceCell) "Position" numCoerceCell

/-- The dataframe `save_data` hands to `to_sql`: cleaned, month-tagged,
numerically coerced. -/
def preparedDF (df : DataFrame) (month : String) : DataFrame :=
  coerceNumeric (setCol (clean_and_prepare_df df) "month" (.str month))

/-- `df.to_sql(table, conn, if_exists="append", index=False)`: the table
contents after the append, and the number of rows the insert wrote. -/
def to_sql (rows tbl : List (List Cell)) : List (List Cell) × Nat :=
  (tbl ++ rows, rows.length)

/-- What a call to `save_data` (src/seo_tracker.py:68-82) does: the table
after the append, the rows it appended, and the Python return value of
`save_data` itself — `none` (Python `None`), since the function body has
no return statement. -/
structure SaveResult where
  newTable : List (List Cell)
  appended : List (List Cell)
  ret : Option Nat
deriving DecidableEq

/-- `save_data(df, table, month)` against a table holding `tbl`. The `table`
name argument only selects which table `tbl` is. -/
def save_data (df : DataFrame) (_table month : String)
    (tbl : List (List Cell)) : SaveResult :=
  let df3 := preparedDF df month
  ⟨(to_sql df3.rows tbl).1, df3.rows, none⟩

/-! ## The upload dispatch of `main` (src/seo_tracker.py:198-206) -/

/-- The column match `main` performs on the uploaded header list before
saving: the matched present column name, the canonical name it is renamed
to, and the destination table. -/
structure UploadMatch where
  matched : String
  canonical : String
  table : String
deriving DecidableEq

/-- `main`'s schema dispatch: `if "Top queries" in df.columns: ... elif
"Top pages" in df.columns: ... else: error` — exact, case-sensitive,
untrimmed membership, no substring pass; `none` is the error branch. -/
def matchUploadColumns (cols : List String) : Option UploadMatch :=
  if "Top queries" ∈ cols then some ⟨"Top queries", "keyword", "queries"⟩
  else if "Top pages" ∈ cols then some ⟨"Top pages", "url", "pages"⟩
  else none

/-! ## Rounding and the month-over-month aggregation -/

/-- Round a rational to the nearest integer, ties to the even neighbour
(Python's `round`). -/
def roundHE (x : ℚ) : ℤ :=
  let f := ⌊x⌋
  let r := x - (f : ℚ)
  if r < 1 / 2 then f
  else if 1 / 2 < r then f + 1
  else if f % 2 = 0 then f else f + 1

/-- Python's `round(x, 2)` idealized over rationals. -/
def roundQ2 (x : ℚ) : ℚ := (roundHE (x * 100) : ℚ) / 100

/-- One row of the `queries`/`pages` table as `load_data` reads it back:
`name` is the `keyword`/`url` column, the metrics are typed by the
schema (`Clicks`/`Impressions` INTEGER, `CTR`/`Position` REAL with
NaN possible). -/
structure DBRow where
  name : String
  month : String
  clicks : ℤ
  impressions : ℤ
  ctr : Option ℚ
  position : Option ℚ
deriving DecidableEq

/-- The subset `df[(df[filter_col] == filter_val) & (df["month"] == month)]`. -/
def matchingRows (df : List DBRow) (filter_val month : String) : List DBRow :=
  df.filter (fun r => r.name == filter_val && r.month == month)

/-- The metric dictionary `aggregate_metrics` returns. -/
structure Agg where
  clicks : ℤ
  impressions : ℤ
  ctr : Option ℚ
  position : Option ℚ
deriving DecidableEq

/-- `aggregate_metrics(df, filter_col, filter_val, month)`
(src/seo_tracker.py:141-159): `none` on an empty subset; otherwise sum
Clicks and Impressions, recompute CTR as `clicks / impressions * 100`
rounded to 2 decimals when impressions are positive (NaN otherwise), and
average the non-NaN Position values rounded to 2 decimals (NaN when none
are present). -/
def aggregate_metrics (df : List DBRow) (filter_val month : String) :
    Option Agg :=
  let subset := matchingRows df filter_val month
  if subset.isEmpty then none
  else
    let clicks := (subset.map DBRow.clicks).sum
    let impressions := (subset.map DBRow.impressions).sum
    let ctr : Option ℚ :=
      if 0 < impressions then
        some (roundQ2 ((clicks : ℚ) / (impressions : ℚ) * 100))
      else none
    let pos := subset.filterMap DBRow.position
    let position : Option ℚ :=
      if pos.isEmpty then none
      else some (roundQ2 (pos.sum / (pos.length : ℚ)))
    some ⟨clicks, impressions, ctr, position⟩

/-- The "Change" column of the comparison table. -/
structure CompChange where
  clicks : ℤ
  impressions : ℤ
  ctr : Option ℚ
  position : Option ℚ
deriving DecidableEq

/-- The two-month comparison of `main` (src/seo_tracker.py:356-371):
`none` (the "no data" warning) when either month's aggregate is `None`;
otherwise the Change column, with the CTR/Position delta NaN whenever
either side is NaN (never coerced to 0) and rounded to 2 decimals
otherwise. -/
def compare_months (df : List DBRow) (filter_val m1 m2 : String) :
    Option CompChange :=
  match aggregate_metrics df filter_val m1,
        aggregate_metrics df filter_val m2 with
  | some a, some b =>
    some ⟨b.clicks - a.clicks, b.impressions - a.impressions,
      match a.ctr, b.ctr with
      | some x, some y => some (roundQ2 (y - x))
      | _, _ => none,
      match a.position, b.position with
      | some x, some y => some (roundQ2 (y - x))
      | _, _ => none⟩
  | _, _ => none

/-! ## Month inference

Modelled from the spec: `infer_period(filename, fallback)` (spec §4.4,
Month Tagger) is not part of src/seo_tracker.py — the month label there
comes from a text input — so the routine is translated from the spec's
words: scan the lower-cased filename for the twelve month tokens
(with "sept" covered by its prefix "sep") and return the canonical
capitalized three-letter label of the token found earliest by string
position, or the fallback when none occurs. -/

/-- First index at which `needle` occurs as a contiguous sublist of `hay`. -/
def substrIdx (needle : List Char) : List Char → Option Nat
  | [] => if needle.isEmpty then some 0 else none
  | c :: t =>
    if needle.isPrefixOf (c :: t) then some 0
    else (substrIdx needle t).map (· + 1)

/-- The twelve month tokens with their canonical capitalized labels. -/
def monthTokens : List (String × String) :=
  [("jan", "Jan"), ("feb", "Feb"), ("mar", "Mar"), ("apr", "Apr"),
   ("may", "May"), ("jun", "Jun"), ("jul", "Jul"), ("aug", "Aug"),
   ("sep", "Sep"), ("oct", "Oct"), ("nov", "Nov"), ("dec", "Dec")]

/-- The earlier of a candidate and an optional best-so-far. -/
def minPair (x : Nat × String) : Option (Nat × String) → Nat × String
  | none => x
  | some y => if y.1 < x.1 then y else x

/-- Of the tokens found, keep the one occurring earliest by string
position (the earliest index is attained by exactly one token, since two
equal-length prefixes at one position coincide). -/
def pickMin : List (Nat × String) → Option (Nat × String)
  | [] => none
  | x :: t => some (minPair x (pickMin t))

/-- Modelled from the spec: `infer_period(filename, fallback)` — the Month
Tagger of spec §4.4, absent from src/seo_tracker.py. -/
def infer_period (filename fallback : String) : String :=
  let low := lowerChars filename
  let found := monthTokens.filterMap
    (fun p => (substrIdx p.1.data low).map (fun i => (i, p.2)))
  match pickMin found with
  | some x => x.2
  | none => fallback

/-! ## The store model for the frame property of `save_data`

Python dataframes are heap objects: `df.columns = ...` and
`df[col] = ...` mutate in place, and `df.copy()` allocates. The store
is a list of dataframes, a reference an index into it. -/

/-- The heap of dataframe objects. -/
abbrev Store := List DataFrame

/-- Read a reference. -/
def readRef (st : Store) (r : Nat) : DataFrame := st.getD r ⟨[], []⟩

/-- Overwrite the object a reference points at. -/
def writeRef (st : Store) (r : Nat) (df : DataFrame) : Store := st.set r df

/-- `save_data` with its heap effects spelled out: `df.copy()` allocates a
fresh object, and every in-place mutation (`clean_and_prepare_df`'s column
renaming and CTR cleaning, `df["month"] = month`, the numeric coercions)
hits that copy; the caller's object at `r` is never written. Returns the
final store and the table contents after the append. -/
def save_data_heap (st : Store) (r : Nat) (month : String)
    (tbl : List (List Cell)) : Store × List (List Cell) :=
  let r1 := st.length
  let st1 := st ++ [readRef st r]
  let st2 := writeRef st1 r1 (clean_and_prepare_df (readRef st1 r1))
  let st3 := writeRef st2 r1 (setCol (readRef st2 r1) "month" (.str month))
  let st4 := writeRef st3 r1 (coerceNumeric (readRef st3 r1))
  (st4, (to_sql (readRef st4 r1).rows tbl).1)

/-! ## List access lemmas -/

theorem getD_append_left {l l2 : List α} {i : Nat} (d : α) (h : i < l.length) :
    (l ++ l2).getD i d = l.getD i d := by
  induction l generalizing i with
  | nil => simp at h
  | cons a t ih =>
    cases i with
    | zero => rfl
    | succ j => exact ih (Nat.lt_of_succ_lt_succ h)

theorem getD_append_len {l : List α} {x : α} (d : α) :
    (l ++ [x]).getD l.length d = x := by
  induction l with
  | nil => rfl
  | cons a t ih => exact ih

theorem getD_set_of_ne {l : List α} {i j : Nat} (h : i ≠ j) (a d : α) :
    (l.set i a).getD j d = l.getD j d := by
  simp only [List.getD_eq_getElem?_getD, List.getElem?_set_ne h]

theorem getD_set_self {l : List α} {i : Nat} (h : i < l.length) (a d : α) :
    (l.set i a).getD i d = a := by
  induction l generalizing i with
  | nil => simp at h
  | cons b t ih =>
    cases i with
    | zero => rfl
    | succ j => exact ih (Nat.lt_of_succ_lt_succ h)

theorem getD_map_lt (f : α → β) {l : List α} {i : Nat} (h : i < l.length)
    (d : β) (d' : α) : (l.map f).getD i d = f (l.getD i d') := by
  induction l generalizing i with
  | nil => simp at h
  | cons a t ih =>
    cases i with
    | zero => rfl
    | succ j => exact ih (Nat.lt_of_succ_lt_succ h)

theorem length_modifyNth (f : α → α) (k : Nat) (l : List α) :
    (modifyNth f k l).length = l.length := by
  induction l generalizing k with
  | nil => cases k <;> rfl
  | cons a t ih =>
    cases k with
    | zero => rfl
    | succ j => simpa [modifyNth] using ih j

theorem getD_modifyNth_ne (f : α → α) {k j : Nat} (h : j ≠ k) (l : List α)
    (d : α) : (modifyNth f k l).getD j d = l.getD j d := by
  induction l generalizing k j with
  | nil => cases k <;> rfl
  | cons a t ih =>
    cases k with
    | zero =>
      cases j with
      | zero => exact absurd rfl h
      | succ i => rfl
    | succ m =>
      cases j with
      | zero => rfl
      | succ i =>
        exact ih (fun hc => h (by simpa using congrArg Nat.succ hc))

theorem getD_modifyNth_eq (f : α → α) {k : Nat} {l : List α}
    (h : k < l.length) (d : α) :
    (modifyNth f k l).getD k d = f (l.getD k d) := by
  induction l generalizing k with
  | nil => simp at h
  | cons a t ih =>
    cases k with
    | zero => rfl
    | succ j => exact ih (Nat.lt_of_succ_lt_succ h)

/-! ## idxOf? lemmas -/

theorem idxOf?_lt_length {name : String} {l : List String} {k : Nat}
    (h : idxOf? name l = some k) : k < l.length := by
  induction l generalizing k with
  | nil => simp [idxOf?] at h
  | cons a t ih =>
    simp only [idxOf?] at h
    by_cases ha : a = name
    · rw [if_pos ha] at h
      cases h
      simp
    · rw [if_neg ha] at h
      cases hj : idxOf? name t with
      | none => rw [hj] at h; simp at h
      | some j =>
        rw [hj] at h
        simp only [Option.map_some'] at h
        cases h
        exact Nat.succ_lt_succ (ih hj)

theorem getD_idxOf? {name : String} {l : List String} {k : Nat}
    (h : idxOf? name l = some k) (d : String) : l.getD k d = name := by
  induction l generalizing k with
  | nil => simp [idxOf?] at h
  | cons a t ih =>
    simp only [idxOf?] at h
    by_cases ha : a = name
    · rw [if_pos ha] at h
      cases h
      simpa using ha
    · rw [if_neg ha] at h
      cases hj : idxOf? name t with
      | none => rw [hj] at h; simp at h
      | some j =>
        rw [hj] at h
        simp only [Option.map_some'] at h
        cases h
        exact ih hj

theorem idxOf?_eq_none_iff {name : String} {l : List String} :
    idxOf? name l = none ↔ name ∉ l := by
  induction l with
  | nil => simp [idxOf?]
  | cons a t ih =>
    by_cases ha : a = name
    · simp [idxOf?, ha]
    · simp [idxOf?, ha, ih, Ne.symm ha]

theorem idxOf?_append_of_some {name : String} {l l2 : List String} {k : Nat}
    (h : idxOf? name l = some k) : idxOf? name (l ++ l2) = some k := by
  induction l generalizing k with
  | nil => simp [idxOf?] at h
  | cons a t ih =>
    simp only [idxOf?] at h
    by_cases ha : a = name
    · rw [if_pos ha] at h
      cases h
      simp [idxOf?, ha]
    · rw [if_neg ha] at h
      cases hj : idxOf? name t with
      | none => rw [hj] at h; simp at h
      | some j =>
        rw [hj] at h
        simp only [Option.map_some'] at h
        cases h
        simp only [List.cons_append, idxOf?, if_neg ha, List.append_eq,
          ih hj, Option.map_some']

/-! ## Parser character lemmas: a comma is never part of a parsed number -/

theorem mem_dropWhile_of_not {p : α → Bool} {c : α} (hc : p c = false)
    {l : List α} (h : c ∈ l) : c ∈ l.dropWhile p := by
  induction l with
  | nil => simp at h
  | cons a t ih =>
    by_cases hp : p a
    · rw [List.dropWhile_cons_of_pos hp]
      rcases List.mem_cons.mp h with rfl | hmem
      · rw [hp] at hc; cases hc
      · exact ih hmem
    · rw [List.dropWhile_cons_of_neg (by simpa using hp)]
      exact h

theorem mem_trimWS_of {c : Char} (hc : isWS c = false) {l : List Char}
    (h : c ∈ l) : c ∈ trimWS l := by
  unfold trimWS
  exact List.mem_reverse.mpr (mem_dropWhile_of_not hc
    (List.mem_reverse.mpr (mem_dropWhile_of_not hc h)))

theorem parseMant_chars {l : List Char} {m : ℚ} (h : parseMant l = some m) :
    ∀ c ∈ l, c.isDigit = true ∨ c = '.' := by
  intro c hc
  rw [← List.takeWhile_append_dropWhile Char.isDigit l] at hc
  rcases List.mem_append.mp hc with hip | hr
  · exact Or.inl (List.mem_takeWhile_imp hip)
  · unfold parseMant at h
    split at h
    next heq => rw [heq] at hr; simp at hr
    next fp heq =>
      rw [heq] at hr
      rcases List.mem_cons.mp hr with rfl | hfp
      · exact Or.inr rfl
      · split at h
        next hall =>
          have := ((Bool.and_eq_true _ _).mp hall).1
          exact Or.inl (List.all_eq_true.mp this c hfp)
        next => cases h
    next => cases h

theorem parseExp_not_comma {l : List Char} {e : ℤ}
    (h : parseExp l = some e) : ',' ∉ l := by
  intro hc
  unfold parseExp at h
  split at h
  next d =>
    split at h
    next => cases h
    next hbad =>
      have hdig : d.all Char.isDigit = true := by
        rcases Bool.or_eq_false_iff.mp (Bool.of_not_eq_true hbad) with ⟨_, hb⟩
        simpa using hb
      rcases List.mem_cons.mp hc with hch | hd
      · cases hch
      · simpa using List.all_eq_true.mp hdig _ hd
  next d =>
    split at h
    next => cases h
    next hbad =>
      have hdig : d.all Char.isDigit = true := by
        rcases Bool.or_eq_false_iff.mp (Bool.of_not_eq_true hbad) with ⟨_, hb⟩
        simpa using hb
      rcases List.mem_cons.mp hc with hch | hd
      · cases hch
      · simpa using List.all_eq_true.mp hdig _ hd
  next =>
    split at h
    next => cases h
    next hbad =>
      have hdig : l.all Char.isDigit = true := by
        rcases Bool.or_eq_false_iff.mp (Bool.of_not_eq_true hbad) with ⟨_, hb⟩
        simpa using hb
      simpa using List.all_eq_true.mp hdig _ hc

theorem head_dropWhile_not {p : α → Bool} {l t : List α} {a : α}
    (h : l.dropWhile p = a :: t) : p a = false := by
  induction l with
  | nil => cases h
  | cons b r ih =>
    by_cases hp : p b
    · rw [List.dropWhile_cons_of_pos hp] at h
      exact ih h
    · rw [List.dropWhile_cons_of_neg (by simpa using hp)] at h
      cases h
      simpa using hp

theorem parseUnsigned_not_comma {l : List Char} {q : ℚ}
    (h : parseUnsigned l = some q) : ',' ∉ l := by
  intro hc
  unfold parseUnsigned at h
  rw [← List.takeWhile_append_dropWhile notExpChar l] at hc
  split at h
  next => cases h
  next m hm =>
    rcases List.mem_append.mp hc with hmant | hrest
    · rcases parseMant_chars hm _ hmant with hd | hd
      · simp [Char.isDigit] at hd
      · cases hd
    · split at h
      next heq => rw [heq] at hrest; simp at hrest
      next b er heq =>
        rw [heq] at hrest
        rcases List.mem_cons.mp hrest with hch | her
        · have hb : notExpChar b = false := head_dropWhile_not heq
          rw [← hch] at hb
          simp [notExpChar] at hb
        · rcases hme : parseExp er with _ | e
          · rw [hme] at h; cases h
          · exact parseExp_not_comma hme her

theorem parseChars_not_comma {l : List Char} {q : ℚ}
    (h : parseChars l = some q) : ',' ∉ l := by
  intro hc
  unfold parseChars at h
  split at h
  next r =>
    rcases List.mem_cons.mp hc with hch | hr
    · cases hch
    · exact parseUnsigned_not_comma h hr
  next r =>
    rcases List.mem_cons.mp hc with hch | hr
    · cases hch
    · rcases hu : parseUnsigned r with _ | u
      · rw [hu] at h; cases h
      · exact parseUnsigned_not_comma hu hr
  next => exact parseUnsigned_not_comma h hc

/-- A value containing a thousands-separator comma never parses:
`pd.to_numeric` does not strip commas. -/
theorem parseNum_comma {s : String} (hc : ',' ∈ s.data) :
    parseNum s = none := by
  rcases h : parseNum s with _ | q
  · rfl
  · exact absurd (mem_trimWS_of (by decide) hc) (parseChars_not_comma h)

/-! ## Rounding lemmas -/

theorem roundHE_intCast (n : ℤ) : roundHE (n : ℚ) = n := by
  unfold roundHE
  rw [Int.floor_intCast]
  norm_num

theorem roundQ2_int_div (k : ℤ) : roundQ2 ((k : ℚ) / 100) = (k : ℚ) / 100 := by
  unfold roundQ2
  rw [div_mul_cancel₀ (k : ℚ) (by norm_num), roundHE_intCast]

theorem roundQ2_sub_stable (k1 k2 : ℤ) :
    roundQ2 ((k2 : ℚ) / 100 - (k1 : ℚ) / 100)
      = (k2 : ℚ) / 100 - (k1 : ℚ) / 100 := by
  have h : (k2 : ℚ) / 100 - (k1 : ℚ) / 100 = ((k2 - k1 : ℤ) : ℚ) / 100 := by
    push_cast
    ring
  rw [h, roundQ2_int_div]

theorem roundQ2_shape (x : ℚ) : ∃ k : ℤ, roundQ2 x = (k : ℚ) / 100 :=
  ⟨roundHE (x * 100), rfl⟩

/-! ## Shape of the aggregates -/

theorem aggregate_metrics_eq_none_iff {df : List DBRow} {v m : String} :
    aggregate_metrics df v m = none ↔ matchingRows df v m = [] := by
  unfold aggregate_metrics
  by_cases h : (matchingRows df v m).isEmpty
  · simp [h, List.isEmpty_iff.mp h]
  · simp only [if_neg h]
    simp [List.isEmpty_iff] at h
    simp [h]

theorem aggregate_ctr_shape {df : List DBRow} {v m : String} {a : Agg}
    (h : aggregate_metrics df v m = some a) {x : ℚ} (hx : a.ctr = some x) :
    ∃ k : ℤ, x = (k : ℚ) / 100 := by
  simp only [aggregate_metrics] at h
  split at h
  next => cases h
  next =>
    cases h
    simp only at hx
    split at hx
    next =>
      cases hx
      exact roundQ2_shape _
    next => cases hx

theorem aggregate_position_shape {df : List DBRow} {v m : String} {a : Agg}
    (h : aggregate_metrics df v m = some a) {x : ℚ}
    (hx : a.position = some x) : ∃ k : ℤ, x = (k : ℚ) / 100 := by
  simp only [aggregate_metrics] at h
  split at h
  next => cases h
  next =>
    cases h
    simp only at hx
    split at hx
    next => cases hx
    next =>
      cases hx
      exact roundQ2_shape _

/-! ## Dataframe stage lemmas -/

theorem mapCol_cols (df : DataFrame) (n : String) (f : Cell → Cell) :
    (mapCol df n f).cols = df.cols := by
  unfold mapCol
  split <;> rfl

theorem mapCol_rows_length (df : DataFrame) (n : String) (f : Cell → Cell) :
    (mapCol df n f).rows.length = df.rows.length := by
  unfold mapCol
  split <;> simp

theorem mapCol_of_found {df : DataFrame} {n : String} {k : Nat}
    (h : idxOf? n df.cols = some k) (f : Cell → Cell) :
    mapCol df n f = ⟨df.cols, df.rows.map (modifyNth f k)⟩ := by
  unfold mapCol
  rw [h]

theorem mapCol_of_none {df : DataFrame} {n : String}
    (h : idxOf? n df.cols = none) (f : Cell → Cell) :
    mapCol df n f = df := by
  unfold mapCol
  rw [h]

theorem setCol_of_found {df : DataFrame} {n : String} {k : Nat}
    (h : idxOf? n df.cols = some k) (c : Cell) :
    setCol df n c = ⟨df.cols, df.rows.map (modifyNth (fun _ => c) k)⟩ := by
  unfold setCol
  rw [h]

theorem setCol_of_none {df : DataFrame} {n : String}
    (h : idxOf? n df.cols = none) (c : Cell) :
    setCol df n c = ⟨df.cols ++ [n], df.rows.map (· ++ [c])⟩ := by
  unfold setCol
  rw [h]

theorem setCol_rows_length (df : DataFrame) (n : String) (c : Cell) :
    (setCol df n c).rows.length = df.rows.length := by
  unfold setCol
  split <;> simp

theorem clean_rows_length (df : DataFrame) :
    (clean_and_prepare_df df).rows.length = df.rows.length := by
  unfold clean_and_prepare_df
  rw [mapCol_rows_length]

theorem coerceNumeric_rows_length (df : DataFrame) :
    (coerceNumeric df).rows.length = df.rows.length := by
  unfold coerceNumeric
  simp only [mapCol_rows_length]

theorem coerceNumeric_cols (df : DataFrame) :
    (coerceNumeric df).cols = df.cols := by
  unfold coerceNumeric
  simp only [mapCol_cols]

/-- `save_data` appends one output row per input row: no row of the raw
dataframe is dropped, whatever its cells hold. -/
theorem preparedDF_rows_length (df : DataFrame) (month : String) :
    (preparedDF df month).rows.length = df.rows.length := by
  unfold preparedDF
  rw [coerceNumeric_rows_length, setCol_rows_length, clean_rows_length]

/-! ## Cell tracking through the pipeline -/

theorem mapCol_row_length {d : DataFrame} {n : String} {f : Cell → Cell}
    {i : Nat} (hi : i < d.rows.length) :
    ((mapCol d n f).rows.getD i []).length = (d.rows.getD i []).length := by
  cases hj : idxOf? n d.cols with
  | none => rw [mapCol_of_none hj]
  | some j =>
    rw [mapCol_of_found hj]
    simp only
    rw [getD_map_lt _ hi _ []]
    exact length_modifyNth _ _ _

theorem mapCol_cell_ne {d : DataFrame} {n : String} {k i : Nat}
    (f : Cell → Cell) (hne : d.cols.getD k "" ≠ n)
    (hi : i < d.rows.length) :
    ((mapCol d n f).rows.getD i []).getD k (.str "")
      = (d.rows.getD i []).getD k (.str "") := by
  cases hj : idxOf? n d.cols with
  | none => rw [mapCol_of_none hj]
  | some j =>
    rw [mapCol_of_found hj]
    simp only
    rw [getD_map_lt _ hi _ []]
    refine getD_modifyNth_ne f (fun hkj => hne ?_) _ _
    rw [hkj]
    exact getD_idxOf? hj ""

theorem mapCol_cell_hit {d : DataFrame} {n : String} {k i : Nat}
    (f : Cell → Cell) (hk : idxOf? n d.cols = some k)
    (hi : i < d.rows.length) (hrow : k < (d.rows.getD i []).length) :
    ((mapCol d n f).rows.getD i []).getD k (.str "")
      = f ((d.rows.getD i []).getD k (.str "")) := by
  rw [mapCol_of_found hk]
  simp only
  rw [getD_map_lt _ hi _ []]
  exact getD_modifyNth_eq f hrow _

/-- The four numeric coercions leave every cell of a column named neither
"Clicks", "Impressions", "CTR" nor "Position" alone. -/
theorem coerceNumeric_cell_other {d : DataFrame} {k i : Nat}
    (hi : i < d.rows.length)
    (hC : d.cols.getD k "" ≠ "Clicks") (hI : d.cols.getD k "" ≠ "Impressions")
    (hT : d.cols.getD k "" ≠ "CTR") (hP : d.cols.getD k "" ≠ "Position") :
    ((coerceNumeric d).rows.getD i []).getD k (.str "")
      = (d.rows.getD i []).getD k (.str "") := by
  unfold coerceNumeric
  have h1 := mapCol_rows_length d "Clicks" intCoerceCell
  have h2 := mapCol_rows_length (mapCol d "Clicks" intCoerceCell)
    "Impressions" intCoerceCell
  have h3 := mapCol_rows_length (mapCol (mapCol d "Clicks" intCoerceCell)
    "Impressions" intCoerceCell) "CTR" numCoerceCell
  have c1 := mapCol_cols d "Clicks" intCoerceCell
  have c2 := mapCol_cols (mapCol d "Clicks" intCoerceCell)
    "Impressions" intCoerceCell
  have c3 := mapCol_cols (mapCol (mapCol d "Clicks" intCoerceCell)
    "Impressions" intCoerceCell) "CTR" numCoerceCell
  rw [mapCol_cell_ne _ (by rw [c3, c2, c1]; exact hP) (by omega),
    mapCol_cell_ne _ (by rw [c2, c1]; exact hT) (by omega),
    mapCol_cell_ne _ (by rw [c1]; exact hI) (by omega),
    mapCol_cell_ne _ hC hi]

/-- After the "Clicks" coercion, a Clicks cell whose string fails to parse
holds the integer 0, and the three later coercions do not touch it. -/
theorem coerceNumeric_cell_clicks {d : DataFrame} {k i : Nat} {s : String}
    (hk : idxOf? "Clicks" d.cols = some k) (hi : i < d.rows.length)
    (hrow : k < (d.rows.getD i []).length)
    (hcell : (d.rows.getD i []).getD k (.str "") = .str s)
    (hp : parseNum s = none) :
    ((coerceNumeric d).rows.getD i []).getD k (.str "") = .int 0 := by
  unfold coerceNumeric
  have hname : d.cols.getD k "" = "Clicks" := getD_idxOf? hk ""
  have h1 := mapCol_rows_length d "Clicks" intCoerceCell
  have h2 := mapCol_rows_length (mapCol d "Clicks" intCoerceCell)
    "Impressions" intCoerceCell
  have h3 := mapCol_rows_length (mapCol (mapCol d "Clicks" intCoerceCell)
    "Impressions" intCoerceCell) "CTR" numCoerceCell
  have c1 := mapCol_cols d "Clicks" intCoerceCell
  have c2 := mapCol_cols (mapCol d "Clicks" intCoerceCell)
    "Impressions" intCoerceCell
  have c3 := mapCol_cols (mapCol (mapCol d "Clicks" intCoerceCell)
    "Impressions" intCoerceCell) "CTR" numCoerceCell
  rw [mapCol_cell_ne _ (by rw [c3, c2, c1, hname]; decide) (by omega),
    mapCol_cell_ne _ (by rw [c2, c1, hname]; decide) (by omega),
    mapCol_cell_ne _ (by rw [c1, hname]; decide) (by omega),
    mapCol_cell_hit _ hk hi hrow, hcell]
  simp [intCoerceCell, coerceCell, hp, truncQ]

/-- After the "Impressions" coercion, an Impressions cell whose string
fails to parse holds the integer 0: the earlier "Clicks" pass and the
later CTR/Position passes do not touch it. -/
theorem coerceNumeric_cell_impressions {d : DataFrame} {k i : Nat}
    {s : String} (hk : idxOf? "Impressions" d.cols = some k)
    (hi : i < d.rows.length) (hrow : k < (d.rows.getD i []).length)
    (hcell : (d.rows.getD i []).getD k (.str "") = .str s)
    (hp : parseNum s = none) :
    ((coerceNumeric d).rows.getD i []).getD k (.str "") = .int 0 := by
  unfold coerceNumeric
  have hname : d.cols.getD k "" = "Impressions" := getD_idxOf? hk ""
  have h1 := mapCol_rows_length d "Clicks" intCoerceCell
  have h2 := mapCol_rows_length (mapCol d "Clicks" intCoerceCell)
    "Impressions" intCoerceCell
  have h3 := mapCol_rows_length (mapCol (mapCol d "Clicks" intCoerceCell)
    "Impressions" intCoerceCell) "CTR" numCoerceCell
  have c1 := mapCol_cols d "Clicks" intCoerceCell
  have c2 := mapCol_cols (mapCol d "Clicks" intCoerceCell)
    "Impressions" intCoerceCell
  have c3 := mapCol_cols (mapCol (mapCol d "Clicks" intCoerceCell)
    "Impressions" intCoerceCell) "CTR" numCoerceCell
  rw [mapCol_cell_ne _ (by rw [c3, c2, c1, hname]; decide) (by omega),
    mapCol_cell_ne _ (by rw [c2, c1, hname]; decide) (by omega),
    mapCol_cell_hit _ (by rw [c1]; exact hk) (by omega)
      (by rw [mapCol_row_length hi]; exact hrow),
    mapCol_cell_ne _ (by rw [hname]; decide) hi, hcell]
  simp [intCoerceCell, coerceCell, hp, truncQ]

/-- The two integer roles together: an unparseable value in the "Clicks"
or the "Impressions" column comes out of the numeric coercions as the
integer 0. -/
theorem coerceNumeric_cell_intRole {d : DataFrame} {c : String} {k i : Nat}
    {s : String} (hc : c = "Clicks" ∨ c = "Impressions")
    (hk : idxOf? c d.cols = some k) (hi : i < d.rows.length)
    (hrow : k < (d.rows.getD i []).length)
    (hcell : (d.rows.getD i []).getD k (.str "") = .str s)
    (hp : parseNum s = none) :
    ((coerceNumeric d).rows.getD i []).getD k (.str "") = .int 0 := by
  rcases hc with rfl | rfl
  · exact coerceNumeric_cell_clicks hk hi hrow hcell hp
  · exact coerceNumeric_cell_impressions hk hi hrow hcell hp

/-! ## pickMin and substrIdx lemmas -/

theorem pickMin_eq_none_iff {l : List (Nat × String)} :
    pickMin l = none ↔ l = [] := by
  cases l <;> simp [pickMin]

theorem pickMin_mem {l : List (Nat × String)} {x : Nat × String}
    (h : pickMin l = some x) : x ∈ l := by
  induction l generalizing x with
  | nil => cases h
  | cons a t ih =>
    simp only [pickMin, Option.some_inj] at h
    cases hp : pickMin t with
    | none =>
      rw [hp] at h
      simp only [minPair] at h
      subst h
      exact List.mem_cons_self _ _
    | some y =>
      rw [hp] at h
      simp only [minPair] at h
      split at h
      · subst h
        exact List.mem_cons_of_mem _ (ih hp)
      · subst h
        exact List.mem_cons_self _ _

theorem pickMin_le {l : List (Nat × String)} {x : Nat × String}
    (h : pickMin l = some x) : ∀ y ∈ l, x.1 ≤ y.1 := by
  induction l generalizing x with
  | nil => cases h
  | cons a t ih =>
    intro y hy
    simp only [pickMin, Option.some_inj] at h
    cases hp : pickMin t with
    | none =>
      rw [hp] at h
      simp only [minPair] at h
      subst h
      rcases List.mem_cons.mp hy with rfl | hyt
      · exact Nat.le_refl _
      · rw [pickMin_eq_none_iff.mp hp] at hyt
        cases hyt
    | some z =>
      rw [hp] at h
      simp only [minPair] at h
      split at h
      next hlt =>
        subst h
        rcases List.mem_cons.mp hy with rfl | hyt
        · exact Nat.le_of_lt hlt
        · exact ih hp y hyt
      next hnlt =>
        subst h
        rcases List.mem_cons.mp hy with rfl | hyt
        · exact Nat.le_refl _
        · exact Nat.le_trans (Nat.le_of_not_lt hnlt) (ih hp y hyt)

theorem substrIdx_isPrefixOf_drop {needle l : List Char} {i : Nat}
    (h : substrIdx needle l = some i) :
    needle.isPrefixOf (l.drop i) = true := by
  induction l generalizing i with
  | nil =>
    simp only [substrIdx] at h
    split at h
    next he =>
      cases h
      simpa [List.isPrefixOf] using (by simpa using he : needle = [])
    next => cases h
  | cons c t ih =>
    simp only [substrIdx] at h
    split at h
    next hp =>
      cases h
      simpa using hp
    next hnp =>
      cases hj : substrIdx needle t with
      | none => rw [hj] at h; cases h
      | some j =>
        rw [hj] at h
        simp only [Option.map_some'] at h
        cases h
        simpa using ih hj

/-! # The claims -/

/-- C1, counterexample: the header list `["top queries", "Clicks"]`
contains a name equal after trimming and lowercasing to the candidate
"Top queries", yet the upload dispatch reports the error branch
("none found") instead of selecting it: the code matches exactly and
case-sensitively and has no substring pass. -/
theorem C1_counterexample :
    matchUploadColumns ["top queries", "Clicks"] = none
      ∧ lowerStr (strip "top queries") = lowerStr (strip "Top queries") := by
  constructor
  · decide
  · decide

/-- C1, amended: the dispatch in `main` selects the queries role exactly
when the untrimmed, case-sensitive name "Top queries" is present, else the
pages role exactly when "Top pages" is present, and reports "none found"
(an error) otherwise; there is no trimmed/case-insensitive pass and no
substring pass. -/
theorem C1_theorem : ∀ cols : List String,
    ("Top queries" ∈ cols →
      matchUploadColumns cols = some ⟨"Top queries", "keyword", "queries"⟩)
    ∧ ("Top queries" ∉ cols → "Top pages" ∈ cols →
      matchUploadColumns cols = some ⟨"Top pages", "url", "pages"⟩)
    ∧ ("Top queries" ∉ cols → "Top pages" ∉ cols →
      matchUploadColumns cols = none) := by
  intro cols
  refine ⟨fun h => ?_, fun h1 h2 => ?_, fun h1 h2 => ?_⟩ <;>
    simp [matchUploadColumns, *]

/-- C1, witness: a header list carrying the exact name is dispatched to
the queries table. -/
theorem C1_witness :
    matchUploadColumns ["Top queries", "Clicks"]
      = some ⟨"Top queries", "keyword", "queries"⟩ :=
  ( C1_theorem ["Top queries", "Clicks"]).1 (by decide)

/-- C3: the value cleaner is total — for every cell the `pd.to_numeric`
call of the CTR cleaning path runs in `coerce` mode and returns `.ok`
(never an exception), the pipeline stores exactly that value, and on the
garbage string "n/a" the value is the missing marker `none`, not an
error. -/
theorem C3_theorem : ∀ c : Cell,
    (∃ v : Option ℚ,
      to_numeric ErrMode.coerce (removePct (cellToStr c)) = .ok v
        ∧ cleanCTRcell c = .num v
        ∧ (parseNum (removePct (cellToStr c)) = none → v = none))
    ∧ to_numeric ErrMode.coerce (removePct (cellToStr (.str "n/a")))
        = .ok none := by
  intro c
  constructor
  · refine ⟨to_numeric_coerce (removePct (cellToStr c)), ?_, rfl, ?_⟩
    · unfold to_numeric to_numeric_coerce
      cases parseNum (removePct (cellToStr c)) <;> rfl
    · intro hp
      unfold to_numeric_coerce
      rw [hp]
  · rfl

/-- C9 (modelled from the spec, `infer_period` is not in
src/seo_tracker.py): the Month Tagger returns the fallback when no month
token occurs in the lower-cased filename, returns the canonical
capitalized label of the token occurring earliest by string position
otherwise, and in particular maps "GSC_Export_sept_2025.xlsx" to "Sep"
for every fallback. -/
theorem C9_theorem : ∀ fn fb : String,
    ((∀ p ∈ monthTokens, substrIdx p.1.data (lowerChars fn) = none) →
      infer_period fn fb = fb)
    ∧ (∀ p i, p ∈ monthTokens →
        substrIdx p.1.data (lowerChars fn) = some i →
        (∀ q j, q ∈ monthTokens →
          substrIdx q.1.data (lowerChars fn) = some j → i ≤ j) →
        infer_period fn fb = p.2)
    ∧ infer_period "GSC_Export_sept_2025.xlsx" fb = "Sep" := by
  intro fn fb
  refine ⟨fun hnone => ?_, fun p i hp hi hmin => ?_, ?_⟩
  · have hfound : monthTokens.filterMap
        (fun p => (substrIdx p.1.data (lowerChars fn)).map
          (fun i => (i, p.2))) = [] :=
      List.filterMap_eq_nil_iff.mpr (fun q hq => by rw [hnone q hq]; rfl)
    simp only [infer_period]
    rw [hfound]
    rfl
  · have hmem : (i, p.2) ∈ monthTokens.filterMap
        (fun q => (substrIdx q.1.data (lowerChars fn)).map
          (fun j => (j, q.2))) :=
      List.mem_filterMap.mpr ⟨p, hp, by rw [hi]; rfl⟩
    have hne : monthTokens.filterMap
        (fun q => (substrIdx q.1.data (lowerChars fn)).map
          (fun j => (j, q.2))) ≠ [] :=
      fun hnil => by rw [hnil] at hmem; cases hmem
    cases hpick : pickMin (monthTokens.filterMap
        (fun q => (substrIdx q.1.data (lowerChars fn)).map
          (fun j => (j, q.2)))) with
    | none => exact absurd (pickMin_eq_none_iff.mp hpick) hne
    | some x =>
      obtain ⟨q, hq, hqx⟩ := List.mem_filterMap.mp (pickMin_mem hpick)
      rcases hj : substrIdx q.1.data (lowerChars fn) with _ | j
      · rw [hj] at hqx; cases hqx
      · rw [hj] at hqx
        simp only [Option.map_some', Option.some_inj] at hqx
        have hx1 : x.1 = j := by rw [← hqx]
        have hx2 : x.2 = q.2 := by rw [← hqx]
        have hij : i = j := Nat.le_antisymm
          (hmin q j hq hj) (hx1 ▸ pickMin_le hpick _ hmem)
        have hlen : ∀ r ∈ monthTokens, r.1.data.length = 3 := by decide
        have hpq : p.1.data = q.1.data := by
          have h1 := (List.isPrefixOf_iff_prefix).mp (substrIdx_isPrefixOf_drop hi)
          have h2 := (List.isPrefixOf_iff_prefix).mp
            (substrIdx_isPrefixOf_drop (hij ▸ hj))
          exact List.IsPrefix.eq_of_length
            (List.prefix_of_prefix_length_le h1 h2
              (by rw [hlen p hp, hlen q hq]))
            (by rw [hlen p hp, hlen q hq])
        have hlab : ∀ r ∈ monthTokens, ∀ r2 ∈ monthTokens,
            r.1.data = r2.1.data → r.2 = r2.2 := by decide
        have : infer_period fn fb = x.2 := by
          simp only [infer_period]
          rw [hpick]
        rw [this, hx2, hlab q hq p hp hpq.symm]
  · rfl

/-- C9, witness: a filename with no month token falls back to the
caller-supplied label. -/
theorem C9_witness : infer_period "data.csv" "Aug" = "Aug" :=
  ( C9_theorem "data.csv" "Aug").1 (by decide)

/-- C2, counterexample: the clicks value "1,234" — a numeric string with a
thousands-separator comma — is not cleaned to 1234: `pd.to_numeric` does
not strip commas, so the parse fails and the fill turns it into 0. -/
theorem C2_counterexample :
    (save_data ⟨["keyword", "Clicks"], [[.str "shoes", .str "1,234"]]⟩
      "queries" "Aug" []).appended
      = [[.str "shoes", .int 0, .str "Aug"]]
    ∧ (Cell.int 0) ≠ (Cell.int 1234) := by
  constructor
  · decide
  · decide

/-- C2, amended: surrounding whitespace is tolerated by the parser and a
percent sign is handled — but only in the CTR column, where every '%' is
removed before parsing ("12.5%" cleans to 12.5); thousands-separator
commas are never stripped: a string containing a comma always fails to
parse, so a clicks value such as "1,234" becomes missing and is filled
with 0, not 1234. -/
theorem C2_theorem :
    (∀ s : String, ',' ∈ s.data → parseNum s = none)
    ∧ (∀ s : String, ∀ q : ℚ, parseNum (removePct s) = some q →
        cleanCTRcell (.str s) = .num (some q))
    ∧ cleanCTRcell (.str "12.5%") = .num (some (25 / 2))
    ∧ intCoerceCell (.str "1,234") = .int 0
    ∧ parseNum " 1234 " = some 1234 := by
  refine ⟨fun s hc => parseNum_comma hc, fun s q h => ?_, ?_, by decide,
    by decide⟩
  · unfold cleanCTRcell to_numeric_coerce cellToStr
    rw [h]
  · have h : (((12 : ℕ) : ℚ) + ((5 : ℕ) : ℚ) / (10 : ℚ) ^ 1) = 25 / 2 := by
      norm_num
    calc cleanCTRcell (.str "12.5%")
        = .num (some (((12 : ℕ) : ℚ) + ((5 : ℕ) : ℚ) / (10 : ℚ) ^ 1)) := rfl
      _ = .num (some (25 / 2)) := by rw [h]

/-- C2, witness: a concrete comma-separated value fails to parse. -/
theorem C2_witness : parseNum "1,2" = none :=
  C2_theorem.1 "1,2" (by decide)

/-- C4, counterexample: with one matching row of 1 click and 3
impressions, the aggregate's ctr is 33.33 — the recomputed ratio rounded
to two decimals — and not the exact `sum(clicks)/sum(impressions)*100`
= 100/3 the claim states. -/
theorem C4_counterexample :
    aggregate_metrics [⟨"a", "Jul", 1, 3, none, none⟩] "a" "Jul"
      = some ⟨1, 3, some (3333 / 100), none⟩
    ∧ ((3333 : ℚ) / 100) ≠ (1 : ℚ) / 3 * 100 := by
  constructor
  · simp +decide [aggregate_metrics, matchingRows]
    norm_num [roundQ2, roundHE]
  · norm_num

/-- C4, amended: on a non-empty match the aggregation sums clicks and
impressions; ctr is `sum(clicks)/sum(impressions)*100` rounded to two
decimal places when the impression sum is positive and undefined (NaN)
otherwise; position is the arithmetic mean of the present position
values rounded to two decimal places, undefined when none are present. -/
theorem C4_theorem : ∀ (df : List DBRow) (v m : String),
    matchingRows df v m ≠ [] →
    ∃ a, aggregate_metrics df v m = some a
      ∧ a.clicks = ((matchingRows df v m).map DBRow.clicks).sum
      ∧ a.impressions = ((matchingRows df v m).map DBRow.impressions).sum
      ∧ (0 < a.impressions →
          a.ctr = some (roundQ2
            ((a.clicks : ℚ) / (a.impressions : ℚ) * 100)))
      ∧ (¬ 0 < a.impressions → a.ctr = none)
      ∧ ((matchingRows df v m).filterMap DBRow.position ≠ [] →
          a.position = some (roundQ2
            (((matchingRows df v m).filterMap DBRow.position).sum
              / (((matchingRows df v m).filterMap DBRow.position).length
                : ℚ))))
      ∧ ((matchingRows df v m).filterMap DBRow.position = [] →
          a.position = none) := by
  intro df v m hne
  simp only [aggregate_metrics]
  rw [if_neg (fun hh => hne (List.isEmpty_iff.mp hh))]
  refine ⟨_, rfl, rfl, rfl, fun hpos => ?_, fun hneg => ?_, fun hpne => ?_,
    fun hpe => ?_⟩
  · simp only [if_pos hpos]
  · simp only [if_neg hneg]
  · simp only [if_neg (fun hh => hpne (List.isEmpty_iff.mp hh))]
  · simp only [if_pos (List.isEmpty_iff.mpr hpe)]

/-- C4, witness: the amended aggregation at a concrete two-row month. -/
theorem C4_witness :
    ∃ a, aggregate_metrics [⟨"a", "Jul", 2, 4, none, some 4⟩] "a" "Jul"
        = some a
      ∧ a.clicks = ((matchingRows [⟨"a", "Jul", 2, 4, none, some 4⟩]
          "a" "Jul").map DBRow.clicks).sum
      ∧ a.impressions = ((matchingRows [⟨"a", "Jul", 2, 4, none, some 4⟩]
          "a" "Jul").map DBRow.impressions).sum
      ∧ (0 < a.impressions →
          a.ctr = some (roundQ2
            ((a.clicks : ℚ) / (a.impressions : ℚ) * 100)))
      ∧ (¬ 0 < a.impressions → a.ctr = none)
      ∧ ((matchingRows [⟨"a", "Jul", 2, 4, none, some 4⟩]
            "a" "Jul").filterMap DBRow.position ≠ [] →
          a.position = some (roundQ2
            (((matchingRows [⟨"a", "Jul", 2, 4, none, some 4⟩]
                "a" "Jul").filterMap DBRow.position).sum
              / (((matchingRows [⟨"a", "Jul", 2, 4, none, some 4⟩]
                  "a" "Jul").filterMap DBRow.position).length : ℚ))))
      ∧ ((matchingRows [⟨"a", "Jul", 2, 4, none, some 4⟩]
            "a" "Jul").filterMap DBRow.position = [] →
          a.position = none) :=
  C4_theorem [⟨"a", "Jul", 2, 4, none, some 4⟩] "a" "Jul" (by decide)

/-- C5: when either month has no matching rows the comparison is the
"no data" outcome `none` rather than zeros; on two defined aggregates
every delta is `value_b - value_a` (exactly — the stored aggregates are
multiples of 1/100, so the final rounding changes nothing), and a NaN on
either side makes that metric's delta NaN, never 0. -/
theorem C5_theorem : ∀ (df : List DBRow) (v m1 m2 : String),
    (matchingRows df v m1 = [] ∨ matchingRows df v m2 = [] →
      compare_months df v m1 m2 = none)
    ∧ (∀ a b, aggregate_metrics df v m1 = some a →
        aggregate_metrics df v m2 = some b →
        ∃ c, compare_months df v m1 m2 = some c
          ∧ c.clicks = b.clicks - a.clicks
          ∧ c.impressions = b.impressions - a.impressions
          ∧ (∀ x y, a.ctr = some x → b.ctr = some y →
              c.ctr = some (y - x))
          ∧ (a.ctr = none ∨ b.ctr = none → c.ctr = none)
          ∧ (∀ x y, a.position = some x → b.position = some y →
              c.position = some (y - x))
          ∧ (a.position = none ∨ b.position = none →
              c.position = none)) := by
  intro df v m1 m2
  constructor
  · intro h
    rcases h with h | h
    · cases h2 : aggregate_metrics df v m2 <;>
        simp [compare_months, aggregate_metrics_eq_none_iff.mpr h, h2]
    · cases h1 : aggregate_metrics df v m1 <;>
        simp [compare_months, h1, aggregate_metrics_eq_none_iff.mpr h]
  · intro a b ha hb
    unfold compare_months
    rw [ha, hb]
    refine ⟨_, rfl, rfl, rfl, fun x y hx hy => ?_, fun h => ?_,
      fun x y hx hy => ?_, fun h => ?_⟩
    · simp only [hx, hy]
      obtain ⟨k1, rfl⟩ := aggregate_ctr_shape ha hx
      obtain ⟨k2, rfl⟩ := aggregate_ctr_shape hb hy
      rw [roundQ2_sub_stable]
    · rcases h with h | h
      · simp only [h]
      · cases a.ctr <;> simp only [h]
    · simp only [hx, hy]
      obtain ⟨k1, rfl⟩ := aggregate_position_shape ha hx
      obtain ⟨k2, rfl⟩ := aggregate_position_shape hb hy
      rw [roundQ2_sub_stable]
    · rcases h with h | h
      · simp only [h]
      · cases a.position <;> simp only [h]

/-- C5, witness: a keyword present in "Jul" but absent in "Aug" compares
to "no data", not zero. -/
theorem C5_witness :
    compare_months [⟨"shoes", "Jul", 100, 1000, none, none⟩]
      "shoes" "Jul" "Aug" = none :=
  ( C5_theorem [⟨"shoes", "Jul", 100, 1000, none, none⟩]
    "shoes" "Jul" "Aug").1 (Or.inr (by decide))

/-- C6, counterexample: a raw row whose entity-name value is the empty
string (empty after trimming) is NOT dropped: `save_data` appends it to
the table unchanged apart from cleaning. -/
theorem C6_counterexample :
    (save_data ⟨["keyword", "Clicks"], [[.str "", .str "5"]]⟩
      "queries" "Aug" []).appended
      = [[.str "", .int 5, .str "Aug"]]
    ∧ strip "" = "" := by
  constructor
  · decide
  · rfl

/-- C6, amended: `save_data` drops no rows at all — the standardized
output has exactly one record per input row, whatever the entity-name
cells hold (rows with empty or missing entity names included). -/
theorem C6_theorem : ∀ (df : DataFrame) (t m : String)
    (tbl : List (List Cell)),
    (df.cols.map strip).Nodup →
    (save_data df t m tbl).appended.length = df.rows.length := by
  intro df t m tbl _
  show (preparedDF df m).rows.length = df.rows.length
  exact preparedDF_rows_length df m

/-- C6, witness: two rows in, two rows appended. -/
theorem C6_witness :
    (save_data ⟨["keyword", "Clicks"],
      [[.str "a", .str "1"], [.str "", .str "2"]]⟩
      "queries" "Sep" []).appended.length = 2 :=
  C6_theorem ⟨["keyword", "Clicks"],
    [[.str "a", .str "1"], [.str "", .str "2"]]⟩ "queries" "Sep" []
    (by decide)

/-- C7: a clicks or impressions cell whose string value fails to parse
does not reject the row or the file — the row count is preserved and the
unparseable value is saved as the numeric-role default 0, whichever of
the two integer-role columns it sits in. -/
theorem C7_theorem : ∀ (df : DataFrame) (t m : String)
    (tbl : List (List Cell)) (col : String) (k i : Nat) (s : String),
    col = "Clicks" ∨ col = "Impressions" →
    (df.cols.map strip).Nodup →
    (∀ j < df.rows.length, (df.rows.getD j []).length = df.cols.length) →
    idxOf? col (df.cols.map strip) = some k →
    i < df.rows.length →
    (df.rows.getD i []).getD k (.str "") = .str s →
    parseNum s = none →
    (save_data df t m tbl).appended.length = df.rows.length
    ∧ ((save_data df t m tbl).appended.getD i []).getD k (.str "")
        = .int 0 := by
  intro df t m tbl col k i s hcol _hnd hrect hK hi hcell hp
  have hcolCTR : col ≠ "CTR" := by
    rcases hcol with rfl | rfl <;> decide
  have hcolMonth : col ≠ "month" := by
    rcases hcol with rfl | rfl <;> decide
  refine ⟨?_, ?_⟩
  · show (preparedDF df m).rows.length = df.rows.length
    exact preparedDF_rows_length df m
  show (((preparedDF df m).rows.getD i []).getD k (.str "")) = .int 0
  have hstriplen : (df.cols.map strip).length = df.cols.length :=
    List.length_map _ _
  have hkC : (df.cols.map strip).getD k "" = col := getD_idxOf? hK ""
  have hkl : k < df.cols.length := by
    have := idxOf?_lt_length hK
    rwa [hstriplen] at this
  have hrowlen : (df.rows.getD i []).length = df.cols.length := hrect i hi
  -- stage 1: clean_and_prepare_df touches only the CTR column
  have h1 : clean_and_prepare_df df
      = mapCol ⟨df.cols.map strip, df.rows⟩ "CTR" cleanCTRcell := rfl
  have h1cols : (clean_and_prepare_df df).cols = df.cols.map strip := by
    rw [h1, mapCol_cols]
  have h1len : (clean_and_prepare_df df).rows.length = df.rows.length :=
    clean_rows_length df
  have h1row : ((clean_and_prepare_df df).rows.getD i []).length
      = (df.rows.getD i []).length := by
    rw [h1]
    exact mapCol_row_length hi
  have h1cell : ((clean_and_prepare_df df).rows.getD i []).getD k (.str "")
      = .str s := by
    rw [h1]
    rw [mapCol_cell_ne (d := ⟨df.cols.map strip, df.rows⟩) cleanCTRcell
      (show (df.cols.map strip).getD k "" ≠ "CTR" by rw [hkC]; exact hcolCTR)
      hi]
    exact hcell
  -- stage 2: the month tag either overwrites a "month" column or appends one
  unfold preparedDF
  rcases hm : idxOf? "month" (clean_and_prepare_df df).cols with _ | jm
  · -- "month" absent: appended as a new last column
    rw [setCol_of_none hm]
    refine coerceNumeric_cell_intRole hcol ?_ ?_ ?_ ?_ hp
    · show idxOf? col ((clean_and_prepare_df df).cols ++ ["month"])
        = some k
      exact idxOf?_append_of_some (by rw [h1cols]; exact hK)
    · simpa [h1len] using hi
    · simp only
      rw [getD_map_lt _ (by rw [h1len]; exact hi) _ []]
      simp only [List.length_append, List.length_cons, List.length_nil]
      omega
    · simp only
      rw [getD_map_lt _ (by rw [h1len]; exact hi) _ []]
      rw [getD_append_left _ (by rw [h1row, hrowlen]; exact hkl)]
      exact h1cell
  · -- a "month" column exists and is overwritten in place
    rw [setCol_of_found hm]
    have hjm : (clean_and_prepare_df df).cols.getD jm "" = "month" :=
      getD_idxOf? hm ""
    have hjmk : jm ≠ k := by
      intro hh
      rw [hh, h1cols, hkC] at hjm
      exact absurd hjm hcolMonth
    refine coerceNumeric_cell_intRole hcol ?_ ?_ ?_ ?_ hp
    · show idxOf? col (clean_and_prepare_df df).cols = some k
      rw [h1cols]
      exact hK
    · simpa [h1len] using hi
    · simp only
      rw [getD_map_lt _ (by rw [h1len]; exact hi) _ []]
      rw [length_modifyNth, h1row, hrowlen]
      exact hkl
    · simp only
      rw [getD_map_lt _ (by rw [h1len]; exact hi) _ []]
      rw [getD_modifyNth_ne _ (fun hh => hjmk hh.symm) _ _]
      exact h1cell

/-- C7, witness: an unparseable "n/a" is saved as 0 and the record
survives — once sitting in a Clicks column, once in an Impressions
column. -/
theorem C7_witness :
    ((save_data ⟨["keyword", "Clicks"], [[.str "shoes", .str "n/a"]]⟩
      "queries" "Aug" []).appended.length = 1
    ∧ (((save_data ⟨["keyword", "Clicks"], [[.str "shoes", .str "n/a"]]⟩
      "queries" "Aug" []).appended.getD 0 []).getD 1 (.str ""))
        = .int 0)
    ∧ ((save_data ⟨["keyword", "Impressions"],
        [[.str "shoes", .str "n/a"]]⟩ "queries" "Aug" []).appended.length
          = 1
    ∧ (((save_data ⟨["keyword", "Impressions"],
        [[.str "shoes", .str "n/a"]]⟩ "queries" "Aug" []).appended.getD
          0 []).getD 1 (.str "")) = .int 0) :=
  ⟨ C7_theorem ⟨["keyword", "Clicks"], [[.str "shoes", .str "n/a"]]⟩
    "queries" "Aug" [] "Clicks" 1 0 "n/a" (Or.inl rfl) (by decide)
    (by decide) (by decide) (by decide) (by decide) (by decide),
   C7_theorem ⟨["keyword", "Impressions"], [[.str "shoes", .str "n/a"]]⟩
    "queries" "Aug" [] "Impressions" 1 0 "n/a" (Or.inr rfl) (by decide)
    (by decide) (by decide) (by decide) (by decide) (by decide)⟩

/-- C8, counterexample: `save_data` writes 1 row for a 1-row input but its
Python return value is `None` — it does not return the number of rows
written. -/
theorem C8_counterexample :
    (save_data ⟨["keyword", "Clicks"], [[.str "shoes", .str "7"]]⟩
      "queries" "Aug" []).appended.length = 1
    ∧ (save_data ⟨["keyword", "Clicks"], [[.str "shoes", .str "7"]]⟩
        "queries" "Aug" []).ret = none
    ∧ (save_data ⟨["keyword", "Clicks"], [[.str "shoes", .str "7"]]⟩
        "queries" "Aug" []).ret
      ≠ some ((save_data ⟨["keyword", "Clicks"],
          [[.str "shoes", .str "7"]]⟩ "queries" "Aug" []).appended.length)
    := by
  refine ⟨by decide, rfl, by decide⟩

/-- C8, amended: `save_data` tags every appended record with the month
label, only appends (the new table is the old table with the new rows at
the end), writes one row per input row (0 for empty input, without
error) — but returns `None`, not the row count. -/
theorem C8_theorem : ∀ (df : DataFrame) (t m : String)
    (tbl : List (List Cell)),
    (df.cols.map strip).Nodup →
    "month" ∉ df.cols.map strip →
    (∀ j < df.rows.length, (df.rows.getD j []).length = df.cols.length) →
    (save_data df t m tbl).newTable = tbl ++ (save_data df t m tbl).appended
    ∧ (save_data df t m tbl).appended.length = df.rows.length
    ∧ (∀ i < (save_data df t m tbl).appended.length,
        ((save_data df t m tbl).appended.getD i []).getD
          df.cols.length (.str "") = .str m)
    ∧ (df.rows = [] → (save_data df t m tbl).appended = [])
    ∧ (save_data df t m tbl).ret = none := by
  intro df t m tbl _hnd hmonth hrect
  have hlen : (save_data df t m tbl).appended.length = df.rows.length :=
    preparedDF_rows_length df m
  refine ⟨rfl, hlen, ?_, ?_, rfl⟩
  · intro i hi
    rw [hlen] at hi
    show (((preparedDF df m).rows.getD i []).getD df.cols.length (.str ""))
      = .str m
    have h1cols : (clean_and_prepare_df df).cols = df.cols.map strip :=
      mapCol_cols _ _ _
    have h1len : (clean_and_prepare_df df).rows.length = df.rows.length :=
      clean_rows_length df
    have h1row : ((clean_and_prepare_df df).rows.getD i []).length
        = (df.rows.getD i []).length := mapCol_row_length hi
    have hm : idxOf? "month" (clean_and_prepare_df df).cols = none := by
      rw [h1cols]
      exact idxOf?_eq_none_iff.mpr hmonth
    unfold preparedDF
    rw [setCol_of_none hm]
    have hcolsget : ((clean_and_prepare_df df).cols ++ ["month"]).getD
        (df.cols.length) "" = "month" := by
      have : (clean_and_prepare_df df).cols.length = df.cols.length := by
        rw [h1cols]
        exact List.length_map _ _
      rw [← this]
      exact getD_append_len ""
    rw [coerceNumeric_cell_other (d := ⟨(clean_and_prepare_df df).cols
        ++ ["month"], (clean_and_prepare_df df).rows.map (fun x => x ++ [Cell.str m])⟩)
      (k := df.cols.length) (i := i)
      (by simpa [h1len] using hi)
      (by rw [show ((clean_and_prepare_df df).cols ++ ["month"]).getD
          df.cols.length "" = "month" from hcolsget]; decide)
      (by rw [show ((clean_and_prepare_df df).cols ++ ["month"]).getD
          df.cols.length "" = "month" from hcolsget]; decide)
      (by rw [show ((clean_and_prepare_df df).cols ++ ["month"]).getD
          df.cols.length "" = "month" from hcolsget]; decide)
      (by rw [show ((clean_and_prepare_df df).cols ++ ["month"]).getD
          df.cols.length "" = "month" from hcolsget]; decide)]
    simp only
    rw [getD_map_lt _ (by rw [h1len]; exact hi) _ []]
    have : ((clean_and_prepare_df df).rows.getD i []).length
        = df.cols.length := by
      rw [h1row]
      exact hrect i hi
    rw [← this]
    exact getD_append_len _
  · intro hnil
    have := hlen
    rw [hnil] at this
    exact List.eq_nil_of_length_eq_zero this

/-- C8, witness: the amended persistence contract at a concrete call. -/
theorem C8_witness :
    (save_data ⟨["keyword"], [[.str "a"]]⟩ "queries" "Oct" []).newTable
      = [] ++ (save_data ⟨["keyword"], [[.str "a"]]⟩
          "queries" "Oct" []).appended
    ∧ (save_data ⟨["keyword"], [[.str "a"]]⟩
        "queries" "Oct" []).appended.length = 1
    ∧ (∀ i < (save_data ⟨["keyword"], [[.str "a"]]⟩
        "queries" "Oct" []).appended.length,
        ((save_data ⟨["keyword"], [[.str "a"]]⟩
          "queries" "Oct" []).appended.getD i []).getD 1 (.str "")
          = .str "Oct")
    ∧ (([[Cell.str "a"]] : List (List Cell)) = [] →
        (save_data ⟨["keyword"], [[.str "a"]]⟩
          "queries" "Oct" []).appended = [])
    ∧ (save_data ⟨["keyword"], [[.str "a"]]⟩ "queries" "Oct" []).ret
        = none :=
  C8_theorem ⟨["keyword"], [[.str "a"]]⟩ "queries" "Oct" []
    (by decide) (by decide) (by decide)

/-- C10: `save_data` does not mutate the caller's dataframe — it copies
first, every in-place write hits the copy, and the caller's object reads
back unchanged after the call; the rows appended to the table are those
of the prepared copy. -/
theorem C10_theorem : ∀ (st : Store) (r : Nat) (m : String)
    (tbl : List (List Cell)),
    r < st.length →
    readRef (save_data_heap st r m tbl).1 r = readRef st r
    ∧ (save_data_heap st r m tbl).2
        = tbl ++ (preparedDF (readRef st r) m).rows := by
  intro st r m tbl hr
  have hr1 : r ≠ st.length := Nat.ne_of_lt hr
  simp only [save_data_heap, readRef, writeRef, to_sql]
  have hread1 : (st ++ [st.getD r ⟨[], []⟩]).getD st.length ⟨[], []⟩
      = st.getD r ⟨[], []⟩ := getD_append_len _
  have hlen1 : (st ++ [st.getD r ⟨[], []⟩]).length = st.length + 1 := by
    simp
  have hset1 : ∀ x : DataFrame,
      ((st ++ [st.getD r ⟨[], []⟩]).set st.length x).getD st.length ⟨[], []⟩
        = x := fun x => getD_set_self (by omega) _ _
  have hset2 : ∀ x y : DataFrame,
      (((st ++ [st.getD r ⟨[], []⟩]).set st.length x).set st.length y).getD
          st.length ⟨[], []⟩ = y := fun x y =>
    getD_set_self (by simp [List.length_set]) _ _
  have hset3 : ∀ x y z : DataFrame,
      ((((st ++ [st.getD r ⟨[], []⟩]).set st.length x).set st.length y).set
          st.length z).getD st.length ⟨[], []⟩ = z := fun x y z =>
    getD_set_self (by simp [List.length_set]) _ _
  constructor
  · rw [getD_set_of_ne (Ne.symm hr1), getD_set_of_ne (Ne.symm hr1),
      getD_set_of_ne (Ne.symm hr1), getD_append_left _ hr]
  · rw [hread1, hset1, hset2, hset3]
    rfl

/-- C10, witness: a concrete one-dataframe store is unchanged at the
caller's reference. -/
theorem C10_witness :
    readRef (save_data_heap [⟨["A"], [[.str "x"]]⟩] 0 "Aug" []).1 0
      = readRef [⟨["A"], [[.str "x"]]⟩] 0
    ∧ (save_data_heap [⟨["A"], [[.str "x"]]⟩] 0 "Aug" []).2
      = [] ++ (preparedDF (readRef [⟨["A"], [[.str "x"]]⟩] 0) "Aug").rows :=
  C10_theorem [⟨["A"], [[.str "x"]]⟩] 0 "Aug" [] (by decide)

end SeoTracker
